import Mathlib

/-!
Verification of the StreamTogether room-session server (`server.js`).

The Socket.IO handlers are shallowly embedded: the two global maps
`rooms` and `users` become association lists (JS `Map` semantics:
insertion order, replace-in-place on re-insert), the JS `Set` of room
members becomes a duplicate-free list with insertion order, and the
Socket.IO room registry (maintained by `socket.join` on `join-room`,
its implicit self-room on connect, and teardown on disconnect) is a
further association list from room name to member sockets.  Every
handler returns the new server state together with the list of
emissions `(recipient socket, outbound event)` it performs.
-/

namespace StreamTogether

/-- Association-list lookup: first entry whose key matches, as in a JS Map. -/
def mapLookup {α : Type} (k : String) : List (String × α) → Option α
  | [] => none
  | (k1, v) :: rest => if k1 = k then some v else mapLookup k rest

/-- JS `Map.set`: replace the value in place if the key is present, else append. -/
def mapInsert {α : Type} (k : String) (v : α) : List (String × α) → List (String × α)
  | [] => [(k, v)]
  | (k1, v1) :: rest =>
    if k1 = k then (k, v) :: rest else (k1, v1) :: mapInsert k v rest

/-- JS `Map.delete`: remove the entry with the given key. -/
def mapErase {α : Type} (k : String) : List (String × α) → List (String × α)
  | [] => []
  | (k1, v1) :: rest =>
    if k1 = k then mapErase k rest else (k1, v1) :: mapErase k rest

/-- JS `Set.add`: append the element unless already present. -/
def setAdd (x : String) (l : List String) : List String :=
  if x ∈ l then l else l ++ [x]

/-- JS `Set.delete`: remove the element. -/
def setRemove (x : String) (l : List String) : List String :=
  l.filter (fun y => y != x)

/-- Shared per-room playback state (`room.playbackState` in `server.js`). -/
structure PlaybackState where
  isPlaying : Bool
  currentTime : ℚ
  playbackRate : ℚ
deriving DecidableEq, Repr

/-- A room in the `rooms` map: member-socket set, current video and its kind,
and the shared playback state. -/
structure Room where
  users : List String
  currentVideo : Option String
  videoType : Option String
  playbackState : PlaybackState
deriving DecidableEq, Repr

/-- A record in the `users` map: the room the socket last joined plus the display name. -/
structure UserInfo where
  roomId : String
  username : String
deriving DecidableEq, Repr

/-- Payload of an inbound `video-event` message.  `type` is an arbitrary string
tag; the numeric fields are optional, `none` standing for an absent (or `null`,
hence falsy) JS field. -/
structure VideoEventData where
  type : String
  currentTime : Option ℚ
  playbackRate : Option ℚ
deriving DecidableEq, Repr

/-- Outbound events emitted by the server, one constructor per `emit` call site. -/
inductive OutEvent where
  | userJoined (userId username : String)
  | roomState (video : Option String) (videoType : Option String)
      (playbackState : PlaybackState) (userList : List (String × String))
  | videoEvent (data : VideoEventData)
  | youtubeVideoChanged (videoId : String) (title : Option String)
  | uploadedVideoChanged (fileUrl : String) (fileName : Option String)
  | chatMessage (userId username message timestamp : String)
  | userLeft (userId username : String)
  | webrtcOffer (offer : String) (sender : String)
  | webrtcAnswer (answer : String) (sender : String)
  | webrtcIceCandidate (candidate : String) (sender : String)
deriving DecidableEq, Repr

/-- An emission: recipient socket paired with the outbound event. -/
abbrev Emit := String × OutEvent

/-- The whole mutable server state: the `rooms` map, the `users` map, and the
Socket.IO room registry that `socket.join` / broadcast operate on. -/
structure ServerState where
  rooms : List (String × Room)
  users : List (String × UserInfo)
  ioRooms : List (String × List String)
deriving DecidableEq, Repr

/-- The fresh room value built on first join (`rooms.set(roomId, {...})`). -/
def defaultRoom : Room :=
  { users := []
    currentVideo := none
    videoType := none
    playbackState := { isPlaying := false, currentTime := 0, playbackRate := 1 } }

/-- Members of a Socket.IO room (empty when the room name is unknown). -/
def ioMembers (io : List (String × List String)) (r : String) : List String :=
  (mapLookup r io).getD []

/-- `socket.join(roomId)`: add the socket to the named Socket.IO room. -/
def ioJoin (roomId sid : String) : List (String × List String) → List (String × List String)
  | [] => [(roomId, [sid])]
  | (r, ms) :: rest =>
    if r = roomId then (r, setAdd sid ms) :: rest else (r, ms) :: ioJoin roomId sid rest

/-- Teardown on disconnect: the socket leaves every Socket.IO room. -/
def ioLeaveAll (sid : String) (io : List (String × List String)) :
    List (String × List String) :=
  io.map (fun p => (p.1, setRemove sid p.2))

/-- `socket.to(room).emit(ev)`: deliver to every member of the Socket.IO room
except the sender. -/
def socketTo (io : List (String × List String)) (sid room : String) (ev : OutEvent) :
    List Emit :=
  ((ioMembers io room).filter (fun t => t != sid)).map (fun t => (t, ev))

/-- `io.to(room).emit(ev)`: deliver to every member of the Socket.IO room,
the sender included. -/
def ioTo (io : List (String × List String)) (room : String) (ev : OutEvent) :
    List Emit :=
  (ioMembers io room).map (fun t => (t, ev))

/-- `users.get(userId)?.username || 'Unknown'`: a missing registry record — or a
falsy (empty) stored name — resolves to the literal `Unknown`. -/
def resolveName (us : List (String × UserInfo)) (uid : String) : String :=
  match mapLookup uid us with
  | none => "Unknown"
  | some u => if u.username = "" then "Unknown" else u.username

/-- JS `v || d` on an optional numeric field: absent (or null) and `0` are
falsy and give the default, any other number is kept. -/
def jsNumOr (v : Option ℚ) (d : ℚ) : ℚ :=
  match v with
  | none => d
  | some x => if x = 0 then d else x

/-- The member list placed in the `room-state` snapshot: the target room's
member set, the joiner freshly added, each id resolved against the registry
as updated by this very join. -/
def joinUserList (s : ServerState) (sid roomId username : String) :
    List (String × String) :=
  let users1 := mapInsert sid ⟨roomId, username⟩ s.users
  let room := (mapLookup roomId s.rooms).getD defaultRoom
  (setAdd sid room.users).map (fun uid => (uid, resolveName users1 uid))

/-- The `join-room` handler: `socket.join`, registry insert, lazy room creation,
membership add, `user-joined` to the others, `room-state` snapshot to the caller. -/
def joinRoom (s : ServerState) (sid roomId username : String) :
    ServerState × List Emit :=
  let io1 := ioJoin roomId sid s.ioRooms
  let users1 := mapInsert sid ⟨roomId, username⟩ s.users
  let room := (mapLookup roomId s.rooms).getD defaultRoom
  let room1 := { room with users := setAdd sid room.users }
  let s1 : ServerState := ⟨mapInsert roomId room1 s.rooms, users1, io1⟩
  (s1,
    socketTo io1 sid roomId (.userJoined sid username) ++
      [(sid, .roomState room1.currentVideo room1.videoType room1.playbackState
          (joinUserList s sid roomId username))])

/-- The playback-state update inside the `video-event` handler: the
`if`/`else if` chain on `data.type`, any other tag leaving the state alone. -/
def applyVideoEvent (ps : PlaybackState) (d : VideoEventData) : PlaybackState :=
  if d.type = "play" then
    { ps with isPlaying := true, currentTime := jsNumOr d.currentTime 0 }
  else if d.type = "pause" then
    { ps with isPlaying := false, currentTime := jsNumOr d.currentTime 0 }
  else if d.type = "seek" then
    { ps with currentTime := jsNumOr d.currentTime 0 }
  else if d.type = "rate-change" then
    { ps with playbackRate := jsNumOr d.playbackRate 1 }
  else ps

/-- The `video-event` handler: guarded on a registered sender and a live room,
updates the playback state, then rebroadcasts the original payload to every
other member of the sender's room. -/
def videoEvent (s : ServerState) (sid : String) (d : VideoEventData) :
    ServerState × List Emit :=
  match mapLookup sid s.users with
  | none => (s, [])
  | some u =>
    match mapLookup u.roomId s.rooms with
    | none => (s, [])
    | some room =>
      let room1 := { room with playbackState := applyVideoEvent room.playbackState d }
      (⟨mapInsert u.roomId room1 s.rooms, s.users, s.ioRooms⟩,
        socketTo s.ioRooms sid u.roomId (.videoEvent d))

/-- The `change-youtube-video` handler: set the video reference and kind, reset
the playback state, broadcast to the whole room, sender included. -/
def changeYoutubeVideo (s : ServerState) (sid videoId : String) (title : Option String) :
    ServerState × List Emit :=
  match mapLookup sid s.users with
  | none => (s, [])
  | some u =>
    match mapLookup u.roomId s.rooms with
    | none => (s, [])
    | some room =>
      let room1 := { room with
        currentVideo := some videoId
        videoType := some "youtube"
        playbackState := { isPlaying := false, currentTime := 0, playbackRate := 1 } }
      (⟨mapInsert u.roomId room1 s.rooms, s.users, s.ioRooms⟩,
        ioTo s.ioRooms u.roomId (.youtubeVideoChanged videoId title))

/-- The `change-uploaded-video` handler: same shape as the YouTube one with the
`upload` kind. -/
def changeUploadedVideo (s : ServerState) (sid fileUrl : String) (fileName : Option String) :
    ServerState × List Emit :=
  match mapLookup sid s.users with
  | none => (s, [])
  | some u =>
    match mapLookup u.roomId s.rooms with
    | none => (s, [])
    | some room =>
      let room1 := { room with
        currentVideo := some fileUrl
        videoType := some "upload"
        playbackState := { isPlaying := false, currentTime := 0, playbackRate := 1 } }
      (⟨mapInsert u.roomId room1 s.rooms, s.users, s.ioRooms⟩,
        ioTo s.ioRooms u.roomId (.uploadedVideoChanged fileUrl fileName))

/-- The `chat-message` handler: guarded only on a registered sender, no state
mutation, room-wide broadcast, sender included.  The server timestamp is an
input of the model. -/
def chatMessage (s : ServerState) (sid message now : String) :
    ServerState × List Emit :=
  match mapLookup sid s.users with
  | none => (s, [])
  | some u =>
    (s, ioTo s.ioRooms u.roomId (.chatMessage sid u.username message now))

/-- The `webrtc-offer` handler: `socket.to(data.target)` relay, no guard, no
state mutation. -/
def webrtcOffer (s : ServerState) (sid target offer : String) :
    ServerState × List Emit :=
  (s, socketTo s.ioRooms sid target (.webrtcOffer offer sid))

/-- The `webrtc-answer` handler. -/
def webrtcAnswer (s : ServerState) (sid target answer : String) :
    ServerState × List Emit :=
  (s, socketTo s.ioRooms sid target (.webrtcAnswer answer sid))

/-- The `webrtc-ice-candidate` handler. -/
def webrtcIce (s : ServerState) (sid target candidate : String) :
    ServerState × List Emit :=
  (s, socketTo s.ioRooms sid target (.webrtcIceCandidate candidate sid))

/-- The `disconnect` handler: remove the socket from the room its registry
record points at, delete the room when that empties it, notify the remaining
members otherwise, drop the registry record, and leave all Socket.IO rooms. -/
def disconnect (s : ServerState) (sid : String) : ServerState × List Emit :=
  match mapLookup sid s.users with
  | none => (⟨s.rooms, s.users, ioLeaveAll sid s.ioRooms⟩, [])
  | some u =>
    let roomsAndEmits :
        List (String × Room) × List Emit :=
      match mapLookup u.roomId s.rooms with
      | none => (s.rooms, [])
      | some room =>
        let members1 := setRemove sid room.users
        if members1 = [] then
          (mapErase u.roomId s.rooms, [])
        else
          (mapInsert u.roomId { room with users := members1 } s.rooms,
            socketTo s.ioRooms sid u.roomId (.userLeft sid u.username))
    (⟨roomsAndEmits.1, mapErase sid s.users, ioLeaveAll sid s.ioRooms⟩,
      roomsAndEmits.2)

/-- One inbound operation on the server, covering connection open, every
handled message, and disconnect. -/
inductive Op where
  | connect (sid : String)
  | join (sid roomId username : String)
  | videoEv (sid : String) (d : VideoEventData)
  | ytChange (sid videoId : String) (title : Option String)
  | upChange (sid fileUrl : String) (fileName : Option String)
  | chat (sid message now : String)
  | offer (sid target offer : String)
  | answer (sid target answer : String)
  | ice (sid target candidate : String)
  | disc (sid : String)
deriving DecidableEq, Repr

/-- State transition of one operation (a fresh connection only enters the
socket's implicit self-named Socket.IO room). -/
def step (s : ServerState) : Op → ServerState
  | .connect sid => ⟨s.rooms, s.users, ioJoin sid sid s.ioRooms⟩
  | .join sid roomId username => (joinRoom s sid roomId username).1
  | .videoEv sid d => (videoEvent s sid d).1
  | .ytChange sid v t => (changeYoutubeVideo s sid v t).1
  | .upChange sid f n => (changeUploadedVideo s sid f n).1
  | .chat sid m now => (chatMessage s sid m now).1
  | .offer sid t p => (webrtcOffer s sid t p).1
  | .answer sid t p => (webrtcAnswer s sid t p).1
  | .ice sid t p => (webrtcIce s sid t p).1
  | .disc sid => (disconnect s sid).1

/-- The empty server: no rooms, no users, no Socket.IO rooms. -/
def initState : ServerState := ⟨[], [], []⟩

/-- The server state after a sequence of operations from the empty server. -/
def run (ops : List Op) : ServerState :=
  ops.foldl step initState

/-! ### Association-list and set lemmas -/

theorem mapLookup_insert {α : Type} (k r : String) (v : α) (m : List (String × α)) :
    mapLookup r (mapInsert k v m) = if r = k then some v else mapLookup r m := by
  induction m with
  | nil =>
    simp only [mapInsert, mapLookup]
    by_cases h : r = k
    · subst h; simp
    · simp [h, Ne.symm h]
  | cons p rest ih =>
    obtain ⟨k1, v1⟩ := p
    simp only [mapInsert]
    by_cases h1 : k1 = k
    · subst h1
      simp only [if_pos rfl, mapLookup]
      by_cases h2 : k1 = r
      · simp [h2]
      · simp [h2, Ne.symm h2]
    · simp only [if_neg h1, mapLookup]
      by_cases h2 : k1 = r
      · subst h2
        simp [h1]
      · simp [h2, ih]

theorem mapLookup_erase {α : Type} (k r : String) (m : List (String × α)) :
    mapLookup r (mapErase k m) = if r = k then none else mapLookup r m := by
  induction m with
  | nil => simp [mapErase, mapLookup]
  | cons p rest ih =>
    obtain ⟨k1, v1⟩ := p
    simp only [mapErase]
    by_cases h1 : k1 = k
    · subst h1
      simp only [if_pos rfl, mapLookup]
      by_cases h2 : k1 = r
      · subst h2
        simp [ih]
      · simp [ih, mapLookup, h2]
    · simp only [if_neg h1, mapLookup]
      by_cases h2 : k1 = r
      · subst h2
        simp [mapLookup, h1]
      · simp [h2, ih]

theorem mapInsert_lookup_self {α : Type} (k : String) (v : α) (m : List (String × α))
    (h : mapLookup k m = some v) : mapInsert k v m = m := by
  induction m with
  | nil => simp [mapLookup] at h
  | cons p rest ih =>
    obtain ⟨k1, v1⟩ := p
    simp only [mapLookup] at h
    simp only [mapInsert]
    by_cases h1 : k1 = k
    · rw [if_pos h1] at h
      rw [if_pos h1]
      cases h
      rw [h1]
    · rw [if_neg h1] at h
      rw [if_neg h1, ih h]

theorem setAdd_ne_nil (x : String) (l : List String) : setAdd x l ≠ [] := by
  unfold setAdd
  split
  · rename_i h
    intro hnil
    subst hnil
    simp at h
  · simp

theorem mem_setAdd_self (x : String) (l : List String) : x ∈ setAdd x l := by
  unfold setAdd
  split
  · assumption
  · simp

theorem mem_setAdd_of_mem {x y : String} (l : List String) (h : y ∈ l) :
    y ∈ setAdd x l := by
  unfold setAdd
  split
  · exact h
  · simp [h]

theorem mem_setRemove {x y : String} {l : List String} :
    y ∈ setRemove x l ↔ y ∈ l ∧ y ≠ x := by
  simp [setRemove, List.mem_filter, bne_iff_ne]

/-! ### Handler case equations -/

theorem videoEvent_no_user {s : ServerState} {sid : String} {d : VideoEventData}
    (hu : mapLookup sid s.users = none) : videoEvent s sid d = (s, []) := by
  simp [videoEvent, hu]

theorem videoEvent_no_room {s : ServerState} {sid : String} {d : VideoEventData}
    {u : UserInfo} (hu : mapLookup sid s.users = some u)
    (hr : mapLookup u.roomId s.rooms = none) : videoEvent s sid d = (s, []) := by
  simp [videoEvent, hu, hr]

theorem videoEvent_eq {s : ServerState} {sid : String} {d : VideoEventData}
    {u : UserInfo} {room : Room} (hu : mapLookup sid s.users = some u)
    (hr : mapLookup u.roomId s.rooms = some room) :
    videoEvent s sid d =
      (⟨mapInsert u.roomId { room with playbackState := applyVideoEvent room.playbackState d }
          s.rooms, s.users, s.ioRooms⟩,
        socketTo s.ioRooms sid u.roomId (.videoEvent d)) := by
  simp [videoEvent, hu, hr]

theorem changeYoutubeVideo_no_user {s : ServerState} {sid videoId : String}
    {title : Option String} (hu : mapLookup sid s.users = none) :
    changeYoutubeVideo s sid videoId title = (s, []) := by
  simp [changeYoutubeVideo, hu]

theorem changeYoutubeVideo_no_room {s : ServerState} {sid videoId : String}
    {title : Option String} {u : UserInfo} (hu : mapLookup sid s.users = some u)
    (hr : mapLookup u.roomId s.rooms = none) :
    changeYoutubeVideo s sid videoId title = (s, []) := by
  simp [changeYoutubeVideo, hu, hr]

theorem changeYoutubeVideo_eq {s : ServerState} {sid videoId : String}
    {title : Option String} {u : UserInfo} {room : Room}
    (hu : mapLookup sid s.users = some u)
    (hr : mapLookup u.roomId s.rooms = some room) :
    changeYoutubeVideo s sid videoId title =
      (⟨mapInsert u.roomId
          { room with
            currentVideo := some videoId
            videoType := some "youtube"
            playbackState := { isPlaying := false, currentTime := 0, playbackRate := 1 } }
          s.rooms, s.users, s.ioRooms⟩,
        ioTo s.ioRooms u.roomId (.youtubeVideoChanged videoId title)) := by
  simp [changeYoutubeVideo, hu, hr]

theorem changeUploadedVideo_no_user {s : ServerState} {sid fileUrl : String}
    {fileName : Option String} (hu : mapLookup sid s.users = none) :
    changeUploadedVideo s sid fileUrl fileName = (s, []) := by
  simp [changeUploadedVideo, hu]

theorem changeUploadedVideo_no_room {s : ServerState} {sid fileUrl : String}
    {fileName : Option String} {u : UserInfo} (hu : mapLookup sid s.users = some u)
    (hr : mapLookup u.roomId s.rooms = none) :
    changeUploadedVideo s sid fileUrl fileName = (s, []) := by
  simp [changeUploadedVideo, hu, hr]

theorem changeUploadedVideo_eq {s : ServerState} {sid fileUrl : String}
    {fileName : Option String} {u : UserInfo} {room : Room}
    (hu : mapLookup sid s.users = some u)
    (hr : mapLookup u.roomId s.rooms = some room) :
    changeUploadedVideo s sid fileUrl fileName =
      (⟨mapInsert u.roomId
          { room with
            currentVideo := some fileUrl
            videoType := some "upload"
            playbackState := { isPlaying := false, currentTime := 0, playbackRate := 1 } }
          s.rooms, s.users, s.ioRooms⟩,
        ioTo s.ioRooms u.roomId (.uploadedVideoChanged fileUrl fileName)) := by
  simp [changeUploadedVideo, hu, hr]

theorem chatMessage_no_user {s : ServerState} {sid message now : String}
    (hu : mapLookup sid s.users = none) : chatMessage s sid message now = (s, []) := by
  simp [chatMessage, hu]

theorem chatMessage_eq {s : ServerState} {sid message now : String} {u : UserInfo}
    (hu : mapLookup sid s.users = some u) :
    chatMessage s sid message now =
      (s, ioTo s.ioRooms u.roomId (.chatMessage sid u.username message now)) := by
  simp [chatMessage, hu]

theorem disconnect_no_user {s : ServerState} {sid : String}
    (hu : mapLookup sid s.users = none) :
    disconnect s sid = (⟨s.rooms, s.users, ioLeaveAll sid s.ioRooms⟩, []) := by
  simp [disconnect, hu]

theorem disconnect_no_room {s : ServerState} {sid : String} {u : UserInfo}
    (hu : mapLookup sid s.users = some u)
    (hr : mapLookup u.roomId s.rooms = none) :
    disconnect s sid = (⟨s.rooms, mapErase sid s.users, ioLeaveAll sid s.ioRooms⟩, []) := by
  simp [disconnect, hu, hr]

theorem disconnect_last_member {s : ServerState} {sid : String} {u : UserInfo} {room : Room}
    (hu : mapLookup sid s.users = some u)
    (hr : mapLookup u.roomId s.rooms = some room)
    (hempty : setRemove sid room.users = []) :
    disconnect s sid =
      (⟨mapErase u.roomId s.rooms, mapErase sid s.users, ioLeaveAll sid s.ioRooms⟩, []) := by
  simp [disconnect, hu, hr, hempty]

theorem disconnect_other_members {s : ServerState} {sid : String} {u : UserInfo} {room : Room}
    (hu : mapLookup sid s.users = some u)
    (hr : mapLookup u.roomId s.rooms = some room)
    (hne : setRemove sid room.users ≠ []) :
    disconnect s sid =
      (⟨mapInsert u.roomId { room with users := setRemove sid room.users } s.rooms,
          mapErase sid s.users, ioLeaveAll sid s.ioRooms⟩,
        socketTo s.ioRooms sid u.roomId (.userLeft sid u.username)) := by
  simp [disconnect, hu, hr, hne]

/-! ### C1: a room is in the store iff its member set is non-empty -/

/-- The store invariant: every room held in the `rooms` map has a non-empty
member set. -/
def RoomsNonEmpty (s : ServerState) : Prop :=
  ∀ r room, mapLookup r s.rooms = some room → room.users ≠ []

theorem roomsNonEmpty_init : RoomsNonEmpty initState := by
  intro r room h
  simp [initState, mapLookup] at h

theorem roomsNonEmpty_step (s : ServerState) (op : Op) (hs : RoomsNonEmpty s) :
    RoomsNonEmpty (step s op) := by
  cases op with
  | connect sid =>
    intro r room h
    exact hs r room h
  | join sid roomId username =>
    intro r room h
    simp only [step, joinRoom, mapLookup_insert] at h
    split at h
    · cases h
      exact setAdd_ne_nil _ _
    · exact hs r room h
  | videoEv sid d =>
    intro r room h
    cases hu : mapLookup sid s.users with
    | none => rw [step, videoEvent_no_user hu] at h; exact hs r room h
    | some u =>
      cases hr : mapLookup u.roomId s.rooms with
      | none => rw [step, videoEvent_no_room hu hr] at h; exact hs r room h
      | some rm =>
        rw [step, videoEvent_eq hu hr] at h
        simp only [mapLookup_insert] at h
        split at h
        · cases h
          exact hs u.roomId rm hr
        · exact hs r room h
  | ytChange sid v t =>
    intro r room h
    cases hu : mapLookup sid s.users with
    | none => rw [step, changeYoutubeVideo_no_user hu] at h; exact hs r room h
    | some u =>
      cases hr : mapLookup u.roomId s.rooms with
      | none => rw [step, changeYoutubeVideo_no_room hu hr] at h; exact hs r room h
      | some rm =>
        rw [step, changeYoutubeVideo_eq hu hr] at h
        simp only [mapLookup_insert] at h
        split at h
        · cases h
          exact hs u.roomId rm hr
        · exact hs r room h
  | upChange sid f n =>
    intro r room h
    cases hu : mapLookup sid s.users with
    | none => rw [step, changeUploadedVideo_no_user hu] at h; exact hs r room h
    | some u =>
      cases hr : mapLookup u.roomId s.rooms with
      | none => rw [step, changeUploadedVideo_no_room hu hr] at h; exact hs r room h
      | some rm =>
        rw [step, changeUploadedVideo_eq hu hr] at h
        simp only [mapLookup_insert] at h
        split at h
        · cases h
          exact hs u.roomId rm hr
        · exact hs r room h
  | chat sid m now =>
    intro r room h
    cases hu : mapLookup sid s.users with
    | none => rw [step, chatMessage_no_user hu] at h; exact hs r room h
    | some u => rw [step, chatMessage_eq hu] at h; exact hs r room h
  | offer sid t p =>
    intro r room h
    exact hs r room h
  | answer sid t p =>
    intro r room h
    exact hs r room h
  | ice sid t p =>
    intro r room h
    exact hs r room h
  | disc sid =>
    intro r room h
    cases hu : mapLookup sid s.users with
    | none => rw [step, disconnect_no_user hu] at h; exact hs r room h
    | some u =>
      cases hr : mapLookup u.roomId s.rooms with
      | none => rw [step, disconnect_no_room hu hr] at h; exact hs r room h
      | some rm =>
        by_cases hempty : setRemove sid rm.users = []
        · rw [step, disconnect_last_member hu hr hempty] at h
          simp only [mapLookup_erase] at h
          split at h
          · cases h
          · exact hs r room h
        · rw [step, disconnect_other_members hu hr hempty] at h
          simp only [mapLookup_insert] at h
          split at h
          · cases h
            exact hempty
          · exact hs r room h

theorem roomsNonEmpty_foldl (ops : List Op) :
    ∀ s : ServerState, RoomsNonEmpty s → RoomsNonEmpty (List.foldl step s ops) := by
  induction ops with
  | nil => intro s hs; exact hs
  | cons op rest ih =>
    intro s hs
    exact ih (step s op) (roomsNonEmpty_step s op hs)

/-- C1: over every sequence of operations from the empty server, a room held in
the store has a non-empty member set; a join always leaves the target room
present in the store; and a disconnect that empties a room deletes it from the
store in that same operation. -/
theorem c1_room_iff_members_nonempty :
    (∀ (ops : List Op) (r : String) (room : Room),
        mapLookup r (run ops).rooms = some room → room.users ≠ []) ∧
    (∀ (s : ServerState) (sid roomId username : String),
        (mapLookup roomId ((joinRoom s sid roomId username).1).rooms).isSome = true) ∧
    (∀ (s : ServerState) (sid : String) (u : UserInfo) (room : Room),
        mapLookup sid s.users = some u → mapLookup u.roomId s.rooms = some room →
        setRemove sid room.users = [] →
        mapLookup u.roomId ((disconnect s sid).1).rooms = none) := by
  refine ⟨?_, ?_, ?_⟩
  · intro ops r room h
    exact roomsNonEmpty_foldl ops initState roomsNonEmpty_init r room h
  · intro s sid roomId username
    simp [joinRoom, mapLookup_insert]
  · intro s sid u room hu hr hempty
    rw [disconnect_last_member hu hr hempty]
    simp [mapLookup_erase]

/-- Witness for C1 at concrete inputs: after `p` connects and joins room `A`,
the stored room has the non-empty member set `[p]`; the join left `A` in the
store; and the disconnect of `p` removes `A` from the store. -/
theorem c1_witness :
    (["p"] ≠ ([] : List String)) ∧
    ((mapLookup "A" ((joinRoom initState "p" "A" "alice").1).rooms).isSome = true) ∧
    (mapLookup "A"
        ((disconnect (run [.connect "p", .join "p" "A" "alice"]) "p").1).rooms = none) := by
  refine ⟨?_, ?_, ?_⟩
  · have h := c1_room_iff_members_nonempty.1 [.connect "p", .join "p" "A" "alice"] "A"
      ⟨["p"], none, none, ⟨false, 0, 1⟩⟩ (by decide)
    exact h
  · exact c1_room_iff_members_nonempty.2.1 initState "p" "A" "alice"
  · exact c1_room_iff_members_nonempty.2.2 (run [.connect "p", .join "p" "A" "alice"])
      "p" ⟨"A", "alice"⟩ ⟨["p"], none, none, ⟨false, 0, 1⟩⟩ (by decide) (by decide) (by decide)

/-! ### C9: the playback rate is never zero -/

theorem jsNumOr_one_ne_zero (v : Option ℚ) : jsNumOr v 1 ≠ 0 := by
  cases v with
  | none => simp [jsNumOr]
  | some x =>
    simp only [jsNumOr]
    split
    · simp
    · assumption

theorem applyVideoEvent_rate_ne_zero (ps : PlaybackState) (d : VideoEventData)
    (h : ps.playbackRate ≠ 0) : (applyVideoEvent ps d).playbackRate ≠ 0 := by
  unfold applyVideoEvent
  split_ifs <;> simp [h, jsNumOr_one_ne_zero]

/-- The rate invariant: every stored room has a non-zero playback rate. -/
def RatesNonZero (s : ServerState) : Prop :=
  ∀ r room, mapLookup r s.rooms = some room → room.playbackState.playbackRate ≠ 0

theorem ratesNonZero_init : RatesNonZero initState := by
  intro r room h
  simp [initState, mapLookup] at h

theorem ratesNonZero_step (s : ServerState) (op : Op) (hs : RatesNonZero s) :
    RatesNonZero (step s op) := by
  cases op with
  | connect sid =>
    intro r room h
    exact hs r room h
  | join sid roomId username =>
    intro r room h
    simp only [step, joinRoom, mapLookup_insert] at h
    split at h
    · cases h
      cases hr : mapLookup roomId s.rooms with
      | none => simp [hr, defaultRoom]
      | some rm =>
        simp only [hr, Option.getD_some]
        exact hs roomId rm hr
    · exact hs r room h
  | videoEv sid d =>
    intro r room h
    cases hu : mapLookup sid s.users with
    | none => rw [step, videoEvent_no_user hu] at h; exact hs r room h
    | some u =>
      cases hr : mapLookup u.roomId s.rooms with
      | none => rw [step, videoEvent_no_room hu hr] at h; exact hs r room h
      | some rm =>
        rw [step, videoEvent_eq hu hr] at h
        simp only [mapLookup_insert] at h
        split at h
        · cases h
          exact applyVideoEvent_rate_ne_zero rm.playbackState d (hs u.roomId rm hr)
        · exact hs r room h
  | ytChange sid v t =>
    intro r room h
    cases hu : mapLookup sid s.users with
    | none => rw [step, changeYoutubeVideo_no_user hu] at h; exact hs r room h
    | some u =>
      cases hr : mapLookup u.roomId s.rooms with
      | none => rw [step, changeYoutubeVideo_no_room hu hr] at h; exact hs r room h
      | some rm =>
        rw [step, changeYoutubeVideo_eq hu hr] at h
        simp only [mapLookup_insert] at h
        split at h
        · cases h
          simp
        · exact hs r room h
  | upChange sid f n =>
    intro r room h
    cases hu : mapLookup sid s.users with
    | none => rw [step, changeUploadedVideo_no_user hu] at h; exact hs r room h
    | some u =>
      cases hr : mapLookup u.roomId s.rooms with
      | none => rw [step, changeUploadedVideo_no_room hu hr] at h; exact hs r room h
      | some rm =>
        rw [step, changeUploadedVideo_eq hu hr] at h
        simp only [mapLookup_insert] at h
        split at h
        · cases h
          simp
        · exact hs r room h
  | chat sid m now =>
    intro r room h
    cases hu : mapLookup sid s.users with
    | none => rw [step, chatMessage_no_user hu] at h; exact hs r room h
    | some u => rw [step, chatMessage_eq hu] at h; exact hs r room h
  | offer sid t p =>
    intro r room h
    exact hs r room h
  | answer sid t p =>
    intro r room h
    exact hs r room h
  | ice sid t p =>
    intro r room h
    exact hs r room h
  | disc sid =>
    intro r room h
    cases hu : mapLookup sid s.users with
    | none => rw [step, disconnect_no_user hu] at h; exact hs r room h
    | some u =>
      cases hr : mapLookup u.roomId s.rooms with
      | none => rw [step, disconnect_no_room hu hr] at h; exact hs r room h
      | some rm =>
        by_cases hempty : setRemove sid rm.users = []
        · rw [step, disconnect_last_member hu hr hempty] at h
          simp only [mapLookup_erase] at h
          split at h
          · cases h
          · exact hs r room h
        · rw [step, disconnect_other_members hu hr hempty] at h
          simp only [mapLookup_insert] at h
          split at h
          · cases h
            exact hs u.roomId rm hr
          · exact hs r room h

theorem ratesNonZero_foldl (ops : List Op) :
    ∀ s : ServerState, RatesNonZero s → RatesNonZero (List.foldl step s ops) := by
  induction ops with
  | nil => intro s hs; exact hs
  | cons op rest ih =>
    intro s hs
    exact ih (step s op) (ratesNonZero_step s op hs)

/-- C9: a `rate-change` whose `playbackRate` is absent (or null, both falsy)
or equal to `0` stores the rate `1`; and over every operation sequence from the
empty server no stored room ever has playback rate `0`. -/
theorem c9_playback_rate_never_zero :
    (∀ (ps : PlaybackState) (ct : Option ℚ),
        applyVideoEvent ps ⟨"rate-change", ct, none⟩ = { ps with playbackRate := 1 } ∧
        applyVideoEvent ps ⟨"rate-change", ct, some 0⟩ = { ps with playbackRate := 1 }) ∧
    (∀ (ops : List Op) (r : String) (room : Room),
        mapLookup r (run ops).rooms = some room →
        room.playbackState.playbackRate ≠ 0) := by
  refine ⟨?_, ?_⟩
  · intro ps ct
    constructor
    · simp [applyVideoEvent, jsNumOr]
    · simp [applyVideoEvent, jsNumOr]
  · intro ops r room h
    exact ratesNonZero_foldl ops initState ratesNonZero_init r room h

/-- Witness for C9 at concrete inputs: a `rate-change` with absent rate applied
to a rate-`1.5` state yields rate `1`, likewise with rate `0`; and after a
connect, a join, and a rate-zero `rate-change` the stored rate of room `A` is
not `0`. -/
theorem c9_witness :
    (applyVideoEvent ⟨true, 7, 3/2⟩ ⟨"rate-change", none, none⟩ = ⟨true, 7, 1⟩ ∧
      applyVideoEvent ⟨true, 7, 3/2⟩ ⟨"rate-change", none, some 0⟩ = ⟨true, 7, 1⟩) ∧
    (⟨false, 0, 1⟩ : PlaybackState).playbackRate ≠ 0 := by
  constructor
  · exact c9_playback_rate_never_zero.1 ⟨true, 7, 3/2⟩ none
  · exact c9_playback_rate_never_zero.2
      [.connect "p", .join "p" "A" "alice", .videoEv "p" ⟨"rate-change", none, some 0⟩]
      "A" ⟨["p"], none, none, ⟨false, 0, 1⟩⟩ (by decide)

/-! ### C2: re-join while already joined -/

/-- The server state after `p` connects and joins room `A` as `alice`. -/
def c2State : ServerState := run [.connect "p", .join "p" "A" "alice"]

/-- C2: evaluating the code at the failing input — `p`, already joined to room
`A`, sends a second join for room `B` — shows the re-join is NOT rejected: the
registry record is overwritten to `B`, room `B` is created with `p` as member,
`p` stays in room `A`, the state changes, and the caller does receive a
`room-state` snapshot. -/
theorem c2_rejoin_is_processed :
    mapLookup "p" ((joinRoom c2State "p" "B" "alice").1).users = some ⟨"B", "alice"⟩ ∧
    "p" ∈ ((mapLookup "B" ((joinRoom c2State "p" "B" "alice").1).rooms).getD defaultRoom).users ∧
    "p" ∈ ((mapLookup "A" ((joinRoom c2State "p" "B" "alice").1).rooms).getD defaultRoom).users ∧
    (joinRoom c2State "p" "B" "alice").1 ≠ c2State ∧
    (joinRoom c2State "p" "B" "alice").2 =
      [("p", .roomState none none ⟨false, 0, 1⟩ [("p", "alice")])] := by
  decide

/-! ### C3: unknown video-event kinds -/

/-- The server state with `p` and `q` both joined to room `A`. -/
def c3State : ServerState :=
  run [.connect "p", .connect "q", .join "p" "A" "alice", .join "q" "A" "bob"]

/-- C3 counterexample: a video-event with the unrecognized kind `glorp`, sent
by `q` in a two-member room, IS broadcast to the other member `p`, so the
claim that such events are never broadcast is false. -/
theorem c3_counterexample_unknown_kind_broadcast :
    ("glorp" ≠ "play" ∧ "glorp" ≠ "pause" ∧ "glorp" ≠ "seek" ∧
      "glorp" ≠ "rate-change") ∧
    (videoEvent c3State "q" ⟨"glorp", none, none⟩).2 =
      [("p", .videoEvent ⟨"glorp", none, none⟩)] := by
  decide

/-- C3 amended: a video-event whose kind is none of play, pause, seek,
rate-change leaves the whole server state (in particular the room playback
state) unchanged, but the original event is still rebroadcast to every other
member of the sender's channel room. -/
theorem c3_amended_unknown_kind_no_mutation_still_broadcast
    (s : ServerState) (sid : String) (d : VideoEventData) (u : UserInfo) (room : Room)
    (hu : mapLookup sid s.users = some u)
    (hr : mapLookup u.roomId s.rooms = some room)
    (hplay : d.type ≠ "play") (hpause : d.type ≠ "pause")
    (hseek : d.type ≠ "seek") (hrate : d.type ≠ "rate-change") :
    (videoEvent s sid d).1 = s ∧
    (videoEvent s sid d).2 = socketTo s.ioRooms sid u.roomId (.videoEvent d) := by
  rw [videoEvent_eq hu hr]
  refine ⟨?_, rfl⟩
  have hps : applyVideoEvent room.playbackState d = room.playbackState := by
    unfold applyVideoEvent
    simp [hplay, hpause, hseek, hrate]
  have hroom : ({ room with playbackState := applyVideoEvent room.playbackState d } : Room)
      = room := by
    rw [hps]
  show ServerState.mk
      (mapInsert u.roomId { room with playbackState := applyVideoEvent room.playbackState d }
        s.rooms) s.users s.ioRooms = s
  rw [hroom, mapInsert_lookup_self _ _ _ hr]

/-- Witness for C3's amended theorem at a concrete input: the `glorp` event
sent by `q` leaves the state unchanged and goes exactly to `p`. -/
theorem c3_amended_witness :
    (videoEvent c3State "q" ⟨"glorp", none, none⟩).1 = c3State ∧
    (videoEvent c3State "q" ⟨"glorp", none, none⟩).2 =
      socketTo c3State.ioRooms "q" "A" (.videoEvent ⟨"glorp", none, none⟩) := by
  exact c3_amended_unknown_kind_no_mutation_still_broadcast c3State "q"
    ⟨"glorp", none, none⟩ ⟨"A", "bob"⟩
    ⟨["p", "q"], none, none, ⟨false, 0, 1⟩⟩
    (by decide) (by decide) (by decide) (by decide) (by decide) (by decide)

/-! ### C4: absent numeric fields -/

/-- C4 counterexample: a `seek` with no `currentTime`, applied to a state whose
current time is `42`, stores `0` — the prior value is not kept, so the claim
that an absent field leaves the field unchanged is false. -/
theorem c4_counterexample_absent_time_resets :
    (applyVideoEvent ⟨true, 42, 1⟩ ⟨"seek", none, none⟩).currentTime = 0 ∧
    (42 : ℚ) ≠ 0 := by
  decide

/-- C4 amended: play, pause and seek with an absent `currentTime` store the
default `0` (not the prior value), and rate-change with an absent
`playbackRate` stores the default `1` (not the prior value). -/
theorem c4_amended_absent_fields_get_defaults :
    ∀ (ps : PlaybackState) (pr ct : Option ℚ),
      (applyVideoEvent ps ⟨"play", none, pr⟩).currentTime = 0 ∧
      (applyVideoEvent ps ⟨"pause", none, pr⟩).currentTime = 0 ∧
      (applyVideoEvent ps ⟨"seek", none, pr⟩).currentTime = 0 ∧
      (applyVideoEvent ps ⟨"rate-change", ct, none⟩).playbackRate = 1 := by
  intro ps pr ct
  refine ⟨?_, ?_, ?_, ?_⟩ <;> simp [applyVideoEvent, jsNumOr]

/-! ### C5: video changes set the reference and kind together and reset playback -/

/-- C5: for any prior room state, `change-youtube-video` stores the new
reference with kind `youtube` and `change-uploaded-video` stores the new
reference with kind `upload`, in both cases resetting the playback state to
`{isPlaying := false, currentTime := 0, playbackRate := 1}`. -/
theorem c5_video_change_resets_playback
    (s : ServerState) (sid videoId fileUrl : String) (title fileName : Option String)
    (u : UserInfo) (room : Room)
    (hu : mapLookup sid s.users = some u)
    (hr : mapLookup u.roomId s.rooms = some room) :
    mapLookup u.roomId ((changeYoutubeVideo s sid videoId title).1).rooms =
      some { room with
        currentVideo := some videoId
        videoType := some "youtube"
        playbackState := ⟨false, 0, 1⟩ } ∧
    mapLookup u.roomId ((changeUploadedVideo s sid fileUrl fileName).1).rooms =
      some { room with
        currentVideo := some fileUrl
        videoType := some "upload"
        playbackState := ⟨false, 0, 1⟩ } := by
  constructor
  · rw [changeYoutubeVideo_eq hu hr]
    simp [mapLookup_insert]
  · rw [changeUploadedVideo_eq hu hr]
    simp [mapLookup_insert]

/-- The server state with `p` joined to room `A` and the playback state already
mutated by a `play` at time `10`. -/
def c5State : ServerState :=
  run [.connect "p", .join "p" "A" "alice", .videoEv "p" ⟨"play", some 10, none⟩]

/-- Witness for C5 at a concrete input: from a playing room, both video-change
kinds store the new reference and kind and reset the playback state. -/
theorem c5_witness :
    mapLookup "A" ((changeYoutubeVideo c5State "p" "vid1" (some "Demo")).1).rooms =
      some ⟨["p"], some "vid1", some "youtube", ⟨false, 0, 1⟩⟩ ∧
    mapLookup "A" ((changeUploadedVideo c5State "p" "f.mp4" (some "f")).1).rooms =
      some ⟨["p"], some "f.mp4", some "upload", ⟨false, 0, 1⟩⟩ := by
  exact c5_video_change_resets_playback c5State "p" "vid1" "f.mp4" (some "Demo") (some "f")
    ⟨"A", "alice"⟩ ⟨["p"], none, none, ⟨true, 10, 1⟩⟩ (by decide) (by decide)

/-! ### C6: broadcast audiences -/

/-- C6: a rebroadcast `video-event` reaches every other member of the sender's
channel room and never the sender itself, while `chat-message` and both
video-changed broadcasts reach every member including the sender. -/
theorem c6_broadcast_audiences
    (s : ServerState) (sid message now videoId fileUrl : String)
    (d : VideoEventData) (title fileName : Option String) (u : UserInfo) (room : Room)
    (hu : mapLookup sid s.users = some u)
    (hr : mapLookup u.roomId s.rooms = some room) :
    (∀ e ∈ (videoEvent s sid d).2, e.1 ≠ sid) ∧
    (∀ t, t ∈ ioMembers s.ioRooms u.roomId → t ≠ sid →
        (t, OutEvent.videoEvent d) ∈ (videoEvent s sid d).2) ∧
    (∀ t, t ∈ ioMembers s.ioRooms u.roomId →
        (t, OutEvent.chatMessage sid u.username message now)
          ∈ (chatMessage s sid message now).2) ∧
    (∀ t, t ∈ ioMembers s.ioRooms u.roomId →
        (t, OutEvent.youtubeVideoChanged videoId title)
          ∈ (changeYoutubeVideo s sid videoId title).2) ∧
    (∀ t, t ∈ ioMembers s.ioRooms u.roomId →
        (t, OutEvent.uploadedVideoChanged fileUrl fileName)
          ∈ (changeUploadedVideo s sid fileUrl fileName).2) := by
  refine ⟨?_, ?_, ?_, ?_, ?_⟩
  · intro e he
    rw [videoEvent_eq hu hr] at he
    simp only [socketTo, List.mem_map, List.mem_filter, bne_iff_ne, ne_eq] at he
    obtain ⟨t, ⟨ht, hts⟩, rfl⟩ := he
    exact hts
  · intro t ht hne
    rw [videoEvent_eq hu hr]
    simp only [socketTo, List.mem_map, List.mem_filter, bne_iff_ne, ne_eq]
    exact ⟨t, ⟨ht, hne⟩, rfl⟩
  · intro t ht
    rw [chatMessage_eq hu]
    simp only [ioTo, List.mem_map]
    exact ⟨t, ht, rfl⟩
  · intro t ht
    rw [changeYoutubeVideo_eq hu hr]
    simp only [ioTo, List.mem_map]
    exact ⟨t, ht, rfl⟩
  · intro t ht
    rw [changeUploadedVideo_eq hu hr]
    simp only [ioTo, List.mem_map]
    exact ⟨t, ht, rfl⟩

/-- Witness for C6 at concrete inputs: in a room with members `p` and `q`, a
`video-event` from `p` reaches `q` but not `p`, while `p`'s chat message and
both video-changed broadcasts reach `p` itself. -/
theorem c6_witness :
    ("q", OutEvent.videoEvent ⟨"play", some 3, none⟩)
        ∈ (videoEvent c3State "p" ⟨"play", some 3, none⟩).2 ∧
    ("p", OutEvent.videoEvent ⟨"play", some 3, none⟩)
        ∉ (videoEvent c3State "p" ⟨"play", some 3, none⟩).2 ∧
    ("p", OutEvent.chatMessage "p" "alice" "hi" "t0") ∈ (chatMessage c3State "p" "hi" "t0").2 ∧
    ("p", OutEvent.youtubeVideoChanged "v1" none) ∈ (changeYoutubeVideo c3State "p" "v1" none).2 ∧
    ("p", OutEvent.uploadedVideoChanged "f1" none)
        ∈ (changeUploadedVideo c3State "p" "f1" none).2 := by
  have h := c6_broadcast_audiences c3State "p" "hi" "t0" "v1" "f1" ⟨"play", some 3, none⟩
    none none ⟨"A", "alice"⟩ ⟨["p", "q"], none, none, ⟨false, 0, 1⟩⟩ (by decide) (by decide)
  refine ⟨?_, ?_, ?_, ?_, ?_⟩
  · exact h.2.1 "q" (by decide) (by decide)
  · intro hmem
    exact h.1 _ hmem rfl
  · exact h.2.2.1 "p" (by decide)
  · exact h.2.2.2.1 "p" (by decide)
  · exact h.2.2.2.2 "p" (by decide)

/-! ### C7: signaling relay -/

/-- C7: the three WebRTC relays never mutate the state; every delivery of an
offer goes to a member of the target-named channel with the sender identity
attached; a target with an empty channel (not connected) means the message is
dropped with no emission at all; a target whose channel is exactly itself
receives the payload as the only delivery; and the emissions never depend on
the room store or the participant registry. -/
theorem c7_signaling_relay (s : ServerState) (sid target payload : String)
    (hne : target ≠ sid) :
    ((webrtcOffer s sid target payload).1 = s ∧
      (webrtcAnswer s sid target payload).1 = s ∧
      (webrtcIce s sid target payload).1 = s) ∧
    (∀ e ∈ (webrtcOffer s sid target payload).2,
        e.1 ∈ ioMembers s.ioRooms target ∧ e.2 = OutEvent.webrtcOffer payload sid) ∧
    (ioMembers s.ioRooms target = [] →
      (webrtcOffer s sid target payload).2 = [] ∧
      (webrtcAnswer s sid target payload).2 = [] ∧
      (webrtcIce s sid target payload).2 = []) ∧
    (ioMembers s.ioRooms target = [target] →
      (webrtcOffer s sid target payload).2 = [(target, .webrtcOffer payload sid)] ∧
      (webrtcAnswer s sid target payload).2 = [(target, .webrtcAnswer payload sid)] ∧
      (webrtcIce s sid target payload).2 = [(target, .webrtcIceCandidate payload sid)]) ∧
    (∀ (rooms2 : List (String × Room)) (users2 : List (String × UserInfo)),
        (webrtcOffer ⟨rooms2, users2, s.ioRooms⟩ sid target payload).2 =
          (webrtcOffer s sid target payload).2 ∧
        (webrtcAnswer ⟨rooms2, users2, s.ioRooms⟩ sid target payload).2 =
          (webrtcAnswer s sid target payload).2 ∧
        (webrtcIce ⟨rooms2, users2, s.ioRooms⟩ sid target payload).2 =
          (webrtcIce s sid target payload).2) := by
  refine ⟨⟨rfl, rfl, rfl⟩, ?_, ?_, ?_, ?_⟩
  · intro e he
    simp only [webrtcOffer, socketTo, List.mem_map, List.mem_filter] at he
    obtain ⟨t, ⟨ht, _⟩, rfl⟩ := he
    exact ⟨ht, rfl⟩
  · intro hempty
    refine ⟨?_, ?_, ?_⟩ <;>
      simp [webrtcOffer, webrtcAnswer, webrtcIce, socketTo, hempty]
  · intro hself
    refine ⟨?_, ?_, ?_⟩ <;>
      simp [webrtcOffer, webrtcAnswer, webrtcIce, socketTo, hself, bne_iff_ne, hne]
  · intro rooms2 users2
    exact ⟨rfl, rfl, rfl⟩

/-- The server state with sockets `t` and `p` connected (each in its own
implicit channel room) and nothing else. -/
def c7State : ServerState := run [.connect "t", .connect "p"]

/-- Witness for C7 at concrete inputs: relaying from `p` to the connected
target `t` delivers exactly one message to `t` and leaves the state unchanged;
relaying to the never-connected target `z` delivers nothing. -/
theorem c7_witness :
    (webrtcOffer c7State "p" "t" "sdp").1 = c7State ∧
    (webrtcOffer c7State "p" "t" "sdp").2 = [("t", .webrtcOffer "sdp" "p")] ∧
    (webrtcAnswer c7State "p" "t" "sdp").2 = [("t", .webrtcAnswer "sdp" "p")] ∧
    (webrtcIce c7State "p" "t" "cand").2 = [("t", .webrtcIceCandidate "cand" "p")] ∧
    (webrtcOffer c7State "p" "z" "sdp").2 = [] := by
  have h1 := c7_signaling_relay c7State "p" "t" "sdp" (by decide)
  have h2 := c7_signaling_relay c7State "p" "t" "cand" (by decide)
  have h3 := c7_signaling_relay c7State "p" "z" "sdp" (by decide)
  refine ⟨h1.1.1, (h1.2.2.2.1 (by decide)).1, (h1.2.2.2.1 (by decide)).2.1,
    (h2.2.2.2.1 (by decide)).2.2, (h3.2.2.1 (by decide)).1⟩

/-! ### C8: the room-state snapshot -/

/-- C8: the `room-state` snapshot emitted to a joining participant carries the
member list of the joined room with the joiner itself already in it, every
member of the updated room appears in that list, and a member id with no
registry record is listed with the name `Unknown` rather than omitted. -/
theorem c8_snapshot_contains_joiner_and_unknowns
    (s : ServerState) (sid roomId username : String) :
    ((sid, OutEvent.roomState
        (((mapLookup roomId s.rooms).getD defaultRoom).currentVideo)
        (((mapLookup roomId s.rooms).getD defaultRoom).videoType)
        (((mapLookup roomId s.rooms).getD defaultRoom).playbackState)
        (joinUserList s sid roomId username)) ∈ (joinRoom s sid roomId username).2) ∧
    ((sid, resolveName (mapInsert sid ⟨roomId, username⟩ s.users) sid)
        ∈ joinUserList s sid roomId username) ∧
    (∀ uid, uid ∈ setAdd sid ((mapLookup roomId s.rooms).getD defaultRoom).users →
        (uid, resolveName (mapInsert sid ⟨roomId, username⟩ s.users) uid)
          ∈ joinUserList s sid roomId username) ∧
    (∀ uid name, (uid, name) ∈ joinUserList s sid roomId username →
        mapLookup uid (mapInsert sid ⟨roomId, username⟩ s.users) = none →
        name = "Unknown") := by
  refine ⟨?_, ?_, ?_, ?_⟩
  · exact List.mem_append_right _ (List.mem_singleton_self _)
  · exact List.mem_map_of_mem _ (mem_setAdd_self sid _)
  · intro uid huid
    exact List.mem_map_of_mem _ huid
  · intro uid name hmem hnone
    simp only [joinUserList, List.mem_map] at hmem
    obtain ⟨a, _, heq⟩ := hmem
    obtain ⟨rfl, rfl⟩ := Prod.mk.injEq .. ▸ heq
    simp [resolveName, hnone]

/-- The server state containing a ghost member: `g` joined room `A`, re-joined
room `B` (leaving its id stale in `A`), and disconnected, removing its registry
record while `A` still lists it; then `p` connected. -/
def c8State : ServerState :=
  run [.connect "g", .join "g" "A" "gina", .join "g" "B" "gina", .disc "g", .connect "p"]

/-- Witness for C8 at a concrete input: when `p` joins room `A`, which still
holds the ghost id `g` with no registry record, the snapshot list contains the
joiner `p` with its name and the ghost `g` under `Unknown`, and the name
attached to `g` is forced to `Unknown` by the registry miss. -/
theorem c8_witness :
    ("p", "alice") ∈ joinUserList c8State "p" "A" "alice" ∧
    ("g", "Unknown") ∈ joinUserList c8State "p" "A" "alice" ∧
    "Unknown" = "Unknown" := by
  have h := c8_snapshot_contains_joiner_and_unknowns c8State "p" "A" "alice"
  refine ⟨h.2.1, h.2.2.1 "g" (by decide), h.2.2.2 "g" "Unknown" (by decide) (by decide)⟩

/-! ### C10: re-join to a different room leaves stale membership -/

/-- C10: a participant registered in room `A` (`u.roomId`) and present in its
member set who joins a different room `B` gets its registry record overwritten
to `B` and is added to `B`'s member set while staying in `A`'s; the following
disconnect removes it only from `B`, so `A` still stores the stale identity. -/
theorem c10_rejoin_stale_membership
    (s : ServerState) (p roomB nameB : String) (u : UserInfo) (roomA : Room)
    (hu : mapLookup p s.users = some u)
    (hA : mapLookup u.roomId s.rooms = some roomA)
    (hmem : p ∈ roomA.users)
    (hne : u.roomId ≠ roomB) :
    mapLookup p ((joinRoom s p roomB nameB).1).users = some ⟨roomB, nameB⟩ ∧
    p ∈ ((mapLookup roomB ((joinRoom s p roomB nameB).1).rooms).getD defaultRoom).users ∧
    mapLookup u.roomId ((joinRoom s p roomB nameB).1).rooms = some roomA ∧
    mapLookup u.roomId ((disconnect (joinRoom s p roomB nameB).1 p).1).rooms = some roomA ∧
    p ∈ ((mapLookup u.roomId ((disconnect (joinRoom s p roomB nameB).1 p).1).rooms).getD
        defaultRoom).users ∧
    p ∉ ((mapLookup roomB ((disconnect (joinRoom s p roomB nameB).1 p).1).rooms).getD
        defaultRoom).users := by
  have husers1 : ((joinRoom s p roomB nameB).1).users = mapInsert p ⟨roomB, nameB⟩ s.users :=
    rfl
  have hrooms1 : ((joinRoom s p roomB nameB).1).rooms =
      mapInsert roomB
        { (mapLookup roomB s.rooms).getD defaultRoom with
          users := setAdd p ((mapLookup roomB s.rooms).getD defaultRoom).users } s.rooms :=
    rfl
  have g1 : mapLookup p ((joinRoom s p roomB nameB).1).users = some ⟨roomB, nameB⟩ := by
    rw [husers1, mapLookup_insert]
    simp
  have g2 : mapLookup roomB ((joinRoom s p roomB nameB).1).rooms =
      some { (mapLookup roomB s.rooms).getD defaultRoom with
        users := setAdd p ((mapLookup roomB s.rooms).getD defaultRoom).users } := by
    rw [hrooms1, mapLookup_insert]
    simp
  have g3 : mapLookup u.roomId ((joinRoom s p roomB nameB).1).rooms = some roomA := by
    rw [hrooms1, mapLookup_insert, if_neg hne]
    exact hA
  have g4 : mapLookup u.roomId ((disconnect (joinRoom s p roomB nameB).1 p).1).rooms =
      some roomA := by
    by_cases hc : setRemove p (setAdd p ((mapLookup roomB s.rooms).getD defaultRoom).users) = []
    · rw [disconnect_last_member g1 g2 hc]
      show mapLookup u.roomId (mapErase roomB ((joinRoom s p roomB nameB).1).rooms) = some roomA
      rw [mapLookup_erase, if_neg hne]
      exact g3
    · rw [disconnect_other_members g1 g2 hc]
      show mapLookup u.roomId
          (mapInsert roomB _ ((joinRoom s p roomB nameB).1).rooms) = some roomA
      rw [mapLookup_insert, if_neg hne]
      exact g3
  refine ⟨g1, ?_, g3, g4, ?_, ?_⟩
  · rw [g2]
    exact mem_setAdd_self p _
  · rw [g4]
    exact hmem
  · by_cases hc : setRemove p (setAdd p ((mapLookup roomB s.rooms).getD defaultRoom).users) = []
    · rw [disconnect_last_member g1 g2 hc]
      show p ∉ ((mapLookup roomB (mapErase roomB ((joinRoom s p roomB nameB).1).rooms)).getD
          defaultRoom).users
      rw [mapLookup_erase, if_pos rfl]
      simp [defaultRoom]
    · rw [disconnect_other_members g1 g2 hc]
      show p ∉ ((mapLookup roomB
          (mapInsert roomB _ ((joinRoom s p roomB nameB).1).rooms)).getD defaultRoom).users
      rw [mapLookup_insert, if_pos rfl]
      intro hmem2
      simp only [Option.getD_some] at hmem2
      rw [mem_setRemove] at hmem2
      exact hmem2.2 rfl

/-- The server state after `p` connects and joins room `A` as `alice`,
identical to the C2 failing state but rebuilt for the C10 scenario. -/
def c10State : ServerState := run [.connect "p", .join "p" "A" "alice"]

/-- Witness for C10 at a concrete input: `p`, a member of room `A`, joins room
`B`; the registry now says `B`, both rooms list `p`, and after the disconnect
room `A` still lists `p` while `B` does not. -/
theorem c10_witness :
    mapLookup "p" ((joinRoom c10State "p" "B" "alice").1).users = some ⟨"B", "alice"⟩ ∧
    "p" ∈ ((mapLookup "B" ((joinRoom c10State "p" "B" "alice").1).rooms).getD
        defaultRoom).users ∧
    mapLookup "A" ((joinRoom c10State "p" "B" "alice").1).rooms =
      some ⟨["p"], none, none, ⟨false, 0, 1⟩⟩ ∧
    mapLookup "A" ((disconnect (joinRoom c10State "p" "B" "alice").1 "p").1).rooms =
      some ⟨["p"], none, none, ⟨false, 0, 1⟩⟩ ∧
    "p" ∈ ((mapLookup "A" ((disconnect (joinRoom c10State "p" "B" "alice").1 "p").1).rooms).getD
        defaultRoom).users ∧
    "p" ∉ ((mapLookup "B" ((disconnect (joinRoom c10State "p" "B" "alice").1 "p").1).rooms).getD
        defaultRoom).users := by
  exact c10_rejoin_stale_membership c10State "p" "B" "alice" ⟨"A", "alice"⟩
    ⟨["p"], none, none, ⟨false, 0, 1⟩⟩ (by decide) (by decide) (by decide) (by decide)

end StreamTogether
